import Mathlib

/-!
# Verification of the PIX payload generator (Harmew/pix)

Shallow embedding of the repository's core: the BR Code / PIX payload
encoder (TLV encoder, payload builder, CRC16/CCITT-FALSE checksum), the
payer-row bookkeeping of the `Pix` form class (`src/js/modules/pix.js`),
and the CSV import parser (`parse_csv_to_pagadores`).

JavaScript strings are modelled as Lean `String` (a list of characters);
UTF-8 byte counting is made explicit via `utf8Bytes`.  Fallible encoding
returns `Except PixError`.  DOM state touched by the payer-row methods is
modelled as an explicit `PixState` record.
-/

/-! ## UTF-8 byte model -/

/-- UTF-8 encoding of a single character as a list of byte values. -/
def utf8Bytes (c : Char) : List Nat :=
  if c.toNat < 128 then [c.toNat]
  else if c.toNat < 2048 then
    [192 + c.toNat / 64, 128 + c.toNat % 64]
  else if c.toNat < 65536 then
    [224 + c.toNat / 4096, 128 + c.toNat / 64 % 64, 128 + c.toNat % 64]
  else
    [240 + c.toNat / 262144, 128 + c.toNat / 4096 % 64,
     128 + c.toNat / 64 % 64, 128 + c.toNat % 64]

/-- The UTF-8 byte sequence of a string. -/
def strBytes (s : String) : List Nat :=
  (s.data.map utf8Bytes).flatten

/-- The UTF-8 byte count of a string (JavaScript `Buffer.byteLength`). -/
def byteLen (s : String) : Nat :=
  (strBytes s).length

/-! ## CRC16/CCITT-FALSE

Modelled from the spec: the checksum component of the merchant payload
builder (`src/js/modules/utils/merchant.js` is not present under `src/`;
only its caller `pix.js` is).  Polynomial 0x1021, initial value 0xFFFF,
no input/output reflection, no final XOR, bytes processed MSB first. -/

/-- Modelled from the spec: one shift-and-conditionally-XOR round of the
CRC16/CCITT-FALSE bit loop, polynomial 0x1021, 16-bit state. -/
def crc16_round (c : Nat) : Nat :=
  (if c &&& 32768 ≠ 0 then (c <<< 1) ^^^ 4129 else c <<< 1) % 65536

/-- Modelled from the spec: absorb one input byte (XORed into the high
byte of the state, then eight bit rounds, MSB first). -/
def crc16_update (crc b : Nat) : Nat :=
  crc16_round^[8] ((crc ^^^ ((b % 256) <<< 8)) % 65536)

/-- Modelled from the spec: CRC16/CCITT-FALSE over a byte sequence,
initial value 0xFFFF, no reflection, no final XOR. -/
def crc16_ccitt_false (data : List Nat) : Nat :=
  data.foldl crc16_update 65535

/-- Uppercase hexadecimal digit for a value below 16. -/
def hexDigit (n : Nat) : Char :=
  if n < 10 then Char.ofNat (48 + n) else Char.ofNat (55 + n)

/-- Modelled from the spec: a 16-bit value formatted as exactly four
uppercase, zero-padded hexadecimal digits. -/
def toHex4 (n : Nat) : String :=
  String.mk [hexDigit (n / 4096 % 16), hexDigit (n / 256 % 16),
             hexDigit (n / 16 % 16), hexDigit (n % 16)]

/-- Is the character an uppercase hexadecimal digit (`0`-`9` or `A`-`F`)? -/
def isHexUpper (c : Char) : Bool :=
  c.isDigit || ('A' ≤ c && c ≤ 'F')

/-! ## TLV encoder -/

/-- Error kinds of the encoder, per the spec's error-handling design. -/
inductive PixError where
  | MissingFieldError
  | FieldTooLongError
deriving DecidableEq, Repr

/-- Zero-padded two-digit decimal rendering of a field length. -/
def pad2 (n : Nat) : String :=
  if n < 10 then "0" ++ toString n else toString n

/-- The tag-length-value string of a field: id, two-digit byte length,
value. -/
def tlv (id value : String) : String :=
  id ++ pad2 (byteLen value) ++ value

/-- Modelled from the spec: the TLV encoder
`encode_field(id, value) = id + zero-padded 2-digit length + value`,
where the length is the UTF-8 byte count of the value; fails with
`FieldTooLongError` when that count exceeds 99. -/
def encode_field (id value : String) : Except PixError String :=
  if byteLen value > 99 then Except.error PixError.FieldTooLongError
  else Except.ok (id ++ pad2 (byteLen value) ++ value)

/-! ## Byte-bounded truncation -/

/-- Longest prefix of a character list whose total UTF-8 size fits in
the byte budget. -/
def truncAux : Nat → List Char → List Char
  | _, [] => []
  | n, c :: cs =>
    if (utf8Bytes c).length ≤ n then c :: truncAux (n - (utf8Bytes c).length) cs
    else []

/-- Modelled from the spec: silent truncation of a field value to at
most `n` UTF-8 bytes (used for merchant name, city and reference). -/
def truncateBytes (n : Nat) (s : String) : String :=
  String.mk (truncAux n s.data)

/-- Is the string pure ASCII? -/
def isAsciiStr (s : String) : Bool :=
  s.data.all (fun c => c.toNat < 128)

/-! ## Payload builder -/

/-- Receiver data consumed by the builder: merchant name and city. -/
structure Receiver where
  name : String
  city : String
deriving DecidableEq, Repr

/-- Does the amount string denote zero (e.g. `"0.00"`)?  Per the spec the
amount field is omitted when the amount is absent or zero. -/
def isZeroAmount (a : String) : Bool :=
  a.data.all (fun c => c = '0' || c = '.')

/-- Modelled from the spec: the transaction-amount contribution to the
payload — empty when the amount is absent or zero, otherwise the TLV
field with id `54`. -/
def amount_field : Option String → Except PixError String
  | none => Except.ok ""
  | some a => if isZeroAmount a then Except.ok "" else encode_field "54" a

/-- Modelled from the spec: the reference sub-field value — the literal
placeholder `"***"` when the reference is empty, otherwise the reference
truncated to 25 bytes. -/
def ref_value (reference : String) : String :=
  if reference = "" then "***" else truncateBytes 25 reference

/-- Modelled from the spec: `build_payload` of the merchant module
(`src/js/modules/utils/merchant.js`, absent from `src/`): fails with
`MissingFieldError` when the key, receiver name or receiver city is
empty; otherwise concatenates the TLV fields 00, 26 (with sub-fields 00
and 01), 52, 53, optional 54, 58, 59 (name truncated to 25 bytes), 60
(city truncated to 15 bytes), 62 (sub-field 05), the literal `6304`,
and the CRC16/CCITT-FALSE checksum of everything before it. -/
def build_payload (key : String) (receiver : Receiver)
    (amount : Option String) (reference : String) : Except PixError String :=
  if key = "" ∨ receiver.name = "" ∨ receiver.city = "" then
    Except.error PixError.MissingFieldError
  else
    match encode_field "00" "01" with
    | Except.error e => Except.error e
    | Except.ok f00 =>
    match encode_field "00" "BR.GOV.BCB.PIX" with
    | Except.error e => Except.error e
    | Except.ok g00 =>
    match encode_field "01" key with
    | Except.error e => Except.error e
    | Except.ok g01 =>
    match encode_field "26" (g00 ++ g01) with
    | Except.error e => Except.error e
    | Except.ok f26 =>
    match encode_field "52" "0000" with
    | Except.error e => Except.error e
    | Except.ok f52 =>
    match encode_field "53" "986" with
    | Except.error e => Except.error e
    | Except.ok f53 =>
    match amount_field amount with
    | Except.error e => Except.error e
    | Except.ok f54 =>
    match encode_field "58" "BR" with
    | Except.error e => Except.error e
    | Except.ok f58 =>
    match encode_field "59" (truncateBytes 25 receiver.name) with
    | Except.error e => Except.error e
    | Except.ok f59 =>
    match encode_field "60" (truncateBytes 15 receiver.city) with
    | Except.error e => Except.error e
    | Except.ok f60 =>
    match encode_field "05" (ref_value reference) with
    | Except.error e => Except.error e
    | Except.ok s05 =>
    match encode_field "62" s05 with
    | Except.error e => Except.error e
    | Except.ok f62 =>
      let pre := f00 ++ f26 ++ f52 ++ f53 ++ f54 ++ f58 ++ f59 ++ f60 ++ f62 ++ "6304"
      Except.ok (pre ++ toHex4 (crc16_ccitt_false (strBytes pre)))

/-- The pre-CRC string of a successful payload, as a function of the
inputs (with the already-encoded amount contribution `amtF`). -/
def pre_crc_string (key : String) (r : Receiver) (amtF : String)
    (reference : String) : String :=
  tlv "00" "01" ++ tlv "26" (tlv "00" "BR.GOV.BCB.PIX" ++ tlv "01" key) ++
  tlv "52" "0000" ++ tlv "53" "986" ++ amtF ++ tlv "58" "BR" ++
  tlv "59" (truncateBytes 25 r.name) ++ tlv "60" (truncateBytes 15 r.city) ++
  tlv "62" (tlv "05" (ref_value reference)) ++ "6304"

/-- A pre-CRC string followed by its own CRC16/CCITT-FALSE checksum in
four uppercase hexadecimal digits. -/
def with_crc (pre : String) : String :=
  pre ++ toHex4 (crc16_ccitt_false (strBytes pre))

/-! ## Payer-row bookkeeping of the `Pix` class (`src/js/modules/pix.js`)

The DOM state the payer-row methods touch is modelled explicitly: the
list of row-div ids currently attached to `pagadores_div` (or `none`
when the div was not found, i.e. is null) and the `qtd_pagadores`
counter.  The remove button is created by the method's own HTML template
(`id="remove-pagador"` is always part of the generated markup), so the
`querySelector` for it always succeeds; re-appending an already attached
DOM node moves it, so the duplicated `appendChild(div)` in
`adicionar_pagador_csv` leaves a single copy of the row in place. -/

/-- A payer parsed from a CSV line (`PagadorCSV` in the source). -/
structure PagadorCSV where
  referencia : String
  valor : String
deriving DecidableEq, Repr

/-- State of the `Pix` form relevant to payer-row management. -/
structure PixState where
  pagadores_div : Option (List String)
  qtd_pagadores : Nat
deriving DecidableEq, Repr

/-- The row-div id generated for the current counter value
(template literal `pagador-${this.qtd_pagadores}`). -/
def pagador_id (n : Nat) : String :=
  "pagador-" ++ toString n

/-- `Pix.adicionar_pagador` (src/js/modules/pix.js:176-224): returns
unchanged when `pagadores_div` is null; otherwise appends one row div
with id `pagador-${qtd_pagadores}` and increments the counter once. -/
def adicionar_pagador (s : PixState) : PixState :=
  match s.pagadores_div with
  | none => s
  | some rows =>
    { pagadores_div := some (rows ++ [pagador_id s.qtd_pagadores]),
      qtd_pagadores := s.qtd_pagadores + 1 }

/-- `Pix.adicionar_pagador_csv` (src/js/modules/pix.js:231-282): returns
unchanged when `pagadores_div` is null; otherwise builds one row div
with id `pagador-${qtd_pagadores}` and then runs the duplicated block
`appendChild(div); qtd_pagadores++` twice — the second `appendChild`
merely moves the already attached div, but the counter is incremented
twice. -/
def adicionar_pagador_csv (_pagador : PagadorCSV) (s : PixState) : PixState :=
  match s.pagadores_div with
  | none => s
  | some rows =>
    { pagadores_div := some (rows ++ [pagador_id s.qtd_pagadores]),
      qtd_pagadores := s.qtd_pagadores + 2 }

/-- The `pagadores.forEach((pagador) => this.adicionar_pagador_csv(pagador))`
loop of `Pix.importar_pagadores_csv` (src/js/modules/pix.js:309-311). -/
def importar_pagadores_csv (ps : List PagadorCSV) (s : PixState) : PixState :=
  ps.foldl (fun st p => adicionar_pagador_csv p st) s

/-! ## CSV import parser (`CSV.parse_csv_to_pagadores`, src/unnamed/part_000)

JavaScript string primitives used by the parser, modelled structurally:
single-character `split`, `trim`, first-occurrence `replace`, and
`substring(0, 20)`. -/

/-- Is the character JavaScript whitespace (the variants relevant to
CSV text)? -/
def isJsSpace (c : Char) : Bool :=
  c = ' ' || c = '\t' || c = '\n' || c = '\r' || c = '\x0b' || c = '\x0c'

/-- JavaScript `String.prototype.trim`. -/
def jsTrim (s : String) : String :=
  String.mk (((s.data.dropWhile isJsSpace).reverse.dropWhile isJsSpace).reverse)

/-- JavaScript `String.prototype.split` with a single-character
separator. -/
def splitChar (sep : Char) : List Char → List (List Char)
  | [] => [[]]
  | c :: rest =>
    let r := splitChar sep rest
    if c = sep then [] :: r
    else
      match r with
      | [] => [[c]]
      | t :: ts => (c :: t) :: ts

/-- JavaScript `s.split(sep)` for a one-character separator string,
returning Lean strings. -/
def jsSplit (sep : Char) (s : String) : List String :=
  (splitChar sep s.data).map String.mk

/-- Replace the first occurrence of `pat` in a character list
(JavaScript `String.prototype.replace` with a string pattern). -/
def replaceFirstList (pat repl : List Char) : List Char → List Char
  | [] => if pat = [] then repl else []
  | c :: rest =>
    if pat.isPrefixOf (c :: rest) then repl ++ (c :: rest).drop pat.length
    else c :: replaceFirstList pat repl rest

/-- JavaScript `s.replace(pat, repl)` for string patterns: only the
first occurrence is replaced. -/
def jsReplaceFirst (s pat repl : String) : String :=
  String.mk (replaceFirstList pat.data repl.data s.data)

/-- The `valor` normalization of a CSV line
(src/unnamed/part_000:111): `.replace("R$ ", "").replace("R$", "")
.replace(",", ".")`, each replacing the first occurrence only. -/
def parse_valor (v : String) : String :=
  jsReplaceFirst (jsReplaceFirst (jsReplaceFirst v "R$ " "") "R$" "") "," "."

/-- The per-line body of `parse_csv_to_pagadores`
(src/unnamed/part_000:106-114): split on `;`, trim the items, and when
the first two items are both present and non-empty push a payer with the
reference cut to 20 characters and the normalized value. -/
def parse_linha (line : String) : Option PagadorCSV :=
  let items := (jsSplit ';' line).map jsTrim
  match items[0]?, items[1]? with
  | some referencia, some valor =>
    if referencia != "" && valor != "" then
      some { referencia := String.mk (referencia.data.take 20),
             valor := parse_valor valor }
    else none
  | _, _ => none

/-- `CSV.parse_csv_to_pagadores` (src/unnamed/part_000:97-116): split the
text on newlines, trim each line, drop falsy (empty) lines, and collect
the payers produced by the per-line body. -/
def parse_csv_to_pagadores (csv : String) : List PagadorCSV :=
  (((jsSplit '\n' csv).map jsTrim).filter (fun l => l != "")).filterMap parse_linha

/-! ## String append and byte-length lemmas -/

lemma sapp_assoc (a b c : String) : a ++ b ++ c = a ++ (b ++ c) := by
  cases a with | mk la =>
  cases b with | mk lb =>
  cases c with | mk lc =>
  show String.mk (la ++ lb ++ lc) = String.mk (la ++ (lb ++ lc))
  rw [List.append_assoc]

lemma sapp_empty (s : String) : s ++ "" = s := by
  cases s with | mk l =>
  show String.mk (l ++ []) = String.mk l
  rw [List.append_nil]

lemma sapp_empty_left (s : String) : "" ++ s = s := by
  cases s with | mk l =>
  show String.mk ([] ++ l) = String.mk l
  rw [List.nil_append]

lemma strBytes_append (a b : String) : strBytes (a ++ b) = strBytes a ++ strBytes b := by
  cases a with | mk la =>
  cases b with | mk lb =>
  show ((la ++ lb).map utf8Bytes).flatten =
    (la.map utf8Bytes).flatten ++ (lb.map utf8Bytes).flatten
  rw [List.map_append, List.flatten_append]

lemma byteLen_append (a b : String) : byteLen (a ++ b) = byteLen a + byteLen b := by
  unfold byteLen
  rw [strBytes_append, List.length_append]

lemma str_ne_empty_iff (s : String) : s ≠ "" ↔ s.data ≠ [] := by
  cases s with | mk l =>
  constructor
  · intro h hl
    exact h (by rw [show l = ([] : List Char) from hl])
  · intro h hs
    apply h
    have : (String.mk l).data = ("" : String).data := by rw [hs]
    exact this

/-! ## CRC16 bounds and hex formatting lemmas -/

lemma crc16_round_lt (c : Nat) : crc16_round c < 65536 := by
  unfold crc16_round
  exact Nat.mod_lt _ (by norm_num)

lemma crc16_update_lt (crc b : Nat) : crc16_update crc b < 65536 := by
  unfold crc16_update
  rw [show (8 : Nat) = 7 + 1 from rfl, Function.iterate_succ_apply']
  exact crc16_round_lt _

lemma crc16_foldl_lt : ∀ (l : List Nat) (init : Nat), init < 65536 →
    l.foldl crc16_update init < 65536 := by
  intro l
  induction l with
  | nil => intro init h; exact h
  | cons b bs ih => intro init _; exact ih _ (crc16_update_lt _ _)

lemma crc16_lt (l : List Nat) : crc16_ccitt_false l < 65536 :=
  crc16_foldl_lt l 65535 (by norm_num)

lemma hexDigit_hex : ∀ m < 16, isHexUpper (hexDigit m) = true := by decide

lemma toHex4_length (n : Nat) : (toHex4 n).length = 4 := rfl

lemma toHex4_hex (n : Nat) : ∀ c ∈ (toHex4 n).data, isHexUpper c = true := by
  intro c hc
  have hd : (toHex4 n).data = [hexDigit (n / 4096 % 16), hexDigit (n / 256 % 16),
      hexDigit (n / 16 % 16), hexDigit (n % 16)] := rfl
  rw [hd] at hc
  simp only [List.mem_cons, List.not_mem_nil, or_false] at hc
  rcases hc with h | h | h | h <;> subst h <;>
    exact hexDigit_hex _ (Nat.mod_lt _ (by norm_num))

/-! ## Field length lemmas -/

lemma pad2_length : ∀ n < 100, (pad2 n).length = 2 := by decide

lemma pad2_byteLen : ∀ n < 100, byteLen (pad2 n) = 2 := by decide

lemma byteLen_tlv (id v : String) :
    byteLen (tlv id v) = byteLen id + byteLen (pad2 (byteLen v)) + byteLen v := by
  unfold tlv
  rw [byteLen_append, byteLen_append]

lemma truncAux_bytes_le : ∀ (l : List Char) (n : Nat),
    ((truncAux n l).map utf8Bytes).flatten.length ≤ n := by
  intro l
  induction l with
  | nil => intro n; simp [truncAux]
  | cons c cs ih =>
    intro n
    unfold truncAux
    by_cases h : (utf8Bytes c).length ≤ n
    · rw [if_pos h]
      simp only [List.map_cons, List.flatten_cons, List.length_append]
      have := ih (n - (utf8Bytes c).length)
      omega
    · rw [if_neg h]
      simp

lemma byteLen_truncateBytes_le (n : Nat) (s : String) :
    byteLen (truncateBytes n s) ≤ n :=
  truncAux_bytes_le s.data n

lemma byteLen_ref_value_le (ref : String) : byteLen (ref_value ref) ≤ 25 := by
  unfold ref_value
  by_cases h : ref = ""
  · rw [if_pos h]; decide
  · rw [if_neg h]; exact byteLen_truncateBytes_le 25 ref

lemma byteLen_tlv05_le (v : String) (h : byteLen v ≤ 25) :
    byteLen (tlv "05" v) ≤ 99 := by
  rw [byteLen_tlv]
  have h2 : byteLen (pad2 (byteLen v)) = 2 := pad2_byteLen _ (by omega)
  have h05 : byteLen "05" = 2 := rfl
  omega

/-! ## ASCII truncation lemmas -/

lemma truncAux_ascii : ∀ (l : List Char) (n : Nat), (∀ c ∈ l, c.toNat < 128) →
    truncAux n l = l.take n := by
  intro l
  induction l with
  | nil => intro n _; simp [truncAux]
  | cons c cs ih =>
    intro n h
    have hc : c.toNat < 128 := h c (List.mem_cons_self c cs)
    have hb : utf8Bytes c = [c.toNat] := by unfold utf8Bytes; rw [if_pos hc]
    unfold truncAux
    rw [hb]
    cases n with
    | zero =>
      rw [if_neg (by simp)]
      rfl
    | succ m =>
      rw [if_pos (by simp)]
      have harg : m + 1 - ([c.toNat] : List Nat).length = m := by simp
      rw [harg, ih m (fun x hx => h x (List.mem_cons_of_mem _ hx))]
      rfl

lemma isAsciiStr_forall (s : String) (h : isAsciiStr s = true) :
    ∀ c ∈ s.data, c.toNat < 128 := by
  intro c hc
  have := List.all_eq_true.1 h c hc
  simpa using this

lemma truncateBytes_ascii (n : Nat) (s : String) (h : isAsciiStr s = true) :
    truncateBytes n s = String.mk (s.data.take n) := by
  unfold truncateBytes
  rw [truncAux_ascii s.data n (isAsciiStr_forall s h)]

lemma byteLen_ascii_aux : ∀ l : List Char, (∀ c ∈ l, c.toNat < 128) →
    ((l.map utf8Bytes).flatten).length = l.length := by
  intro l
  induction l with
  | nil => intro _; rfl
  | cons c cs ih =>
    intro h
    have hb : utf8Bytes c = [c.toNat] := by
      unfold utf8Bytes
      rw [if_pos (h c (List.mem_cons_self c cs))]
    simp only [List.map_cons, List.flatten_cons, List.length_append, hb,
      List.length_cons, List.length_nil, List.length_singleton]
    rw [ih (fun x hx => h x (List.mem_cons_of_mem _ hx))]
    omega

lemma byteLen_ascii (s : String) (h : isAsciiStr s = true) :
    byteLen s = s.length :=
  byteLen_ascii_aux s.data (isAsciiStr_forall s h)

lemma truncateBytes_of_short (n : Nat) (s : String) (ha : isAsciiStr s = true)
    (h : byteLen s ≤ n) : truncateBytes n s = s := by
  rw [truncateBytes_ascii n s ha]
  rw [byteLen_ascii s ha] at h
  rw [List.take_of_length_le h]

/-! ## Encoder inversion lemmas -/

lemma encode_field_ok_of_le (id v : String) (h : byteLen v ≤ 99) :
    encode_field id v = Except.ok (tlv id v) := by
  unfold encode_field tlv
  rw [if_neg (by omega)]

lemma encode_field_ok_inv (id v w : String) (h : encode_field id v = Except.ok w) :
    w = tlv id v ∧ byteLen v ≤ 99 := by
  unfold encode_field at h
  by_cases hb : byteLen v > 99
  · rw [if_pos hb] at h
    exact absurd h (by simp)
  · rw [if_neg hb] at h
    exact ⟨(Except.ok.inj h).symm, by omega⟩

lemma encode_field_error_inv (id v : String) (e : PixError)
    (h : encode_field id v = Except.error e) :
    e = PixError.FieldTooLongError ∧ 99 < byteLen v := by
  unfold encode_field at h
  by_cases hb : byteLen v > 99
  · rw [if_pos hb] at h
    exact ⟨(Except.error.inj h).symm, hb⟩
  · rw [if_neg hb] at h
    exact absurd h (by simp)

lemma amount_field_some (a : String) :
    amount_field (some a) =
      if isZeroAmount a then Except.ok "" else encode_field "54" a := rfl

lemma amount_field_error_inv (amt : Option String) (e : PixError)
    (h : amount_field amt = Except.error e) : e = PixError.FieldTooLongError := by
  cases amt with
  | none => exact absurd h (by simp [amount_field])
  | some a =>
    rw [amount_field_some] at h
    by_cases hz : isZeroAmount a
    · rw [if_pos hz] at h
      exact absurd h (by simp)
    · rw [if_neg hz] at h
      exact (encode_field_error_inv _ _ _ h).1

/-! ## Fixed-field evaluations -/

lemma enc_f00 : encode_field "00" "01" = Except.ok (tlv "00" "01") := rfl

lemma enc_gui : encode_field "00" "BR.GOV.BCB.PIX" =
    Except.ok (tlv "00" "BR.GOV.BCB.PIX") := rfl

lemma enc_f52 : encode_field "52" "0000" = Except.ok (tlv "52" "0000") := rfl

lemma enc_f53 : encode_field "53" "986" = Except.ok (tlv "53" "986") := rfl

lemma enc_f58 : encode_field "58" "BR" = Except.ok (tlv "58" "BR") := rfl

/-! ## Master characterization of the payload builder -/

lemma build_payload_cases (k : String) (r : Receiver) (amt : Option String)
    (ref : String) :
    ((k = "" ∨ r.name = "" ∨ r.city = "") ∧
      build_payload k r amt ref = Except.error PixError.MissingFieldError) ∨
    (¬(k = "" ∨ r.name = "" ∨ r.city = "") ∧
      (99 < byteLen k ∨
        99 < byteLen (tlv "00" "BR.GOV.BCB.PIX" ++ tlv "01" k) ∨
        ∃ e, amount_field amt = Except.error e) ∧
      build_payload k r amt ref = Except.error PixError.FieldTooLongError) ∨
    (¬(k = "" ∨ r.name = "" ∨ r.city = "") ∧
      ∃ amtF, amount_field amt = Except.ok amtF ∧
        build_payload k r amt ref =
          Except.ok (with_crc (pre_crc_string k r amtF ref))) := by
  by_cases hc : k = "" ∨ r.name = "" ∨ r.city = ""
  · left
    refine ⟨hc, ?_⟩
    unfold build_payload
    rw [if_pos hc]
  · unfold build_payload
    rw [if_neg hc]
    simp only [enc_f00, enc_gui, enc_f52, enc_f53, enc_f58]
    rcases h01 : encode_field "01" k with e | g01
    · right; left
      refine ⟨hc, Or.inl (encode_field_error_inv _ _ _ h01).2, ?_⟩
      simp only [h01]
      rw [(encode_field_error_inv _ _ _ h01).1]
    · obtain ⟨rfl, -⟩ := encode_field_ok_inv _ _ _ h01
      simp only [h01]
      rcases h26 : encode_field "26" (tlv "00" "BR.GOV.BCB.PIX" ++ tlv "01" k)
        with e | f26
      · right; left
        refine ⟨hc, Or.inr (Or.inl (encode_field_error_inv _ _ _ h26).2), ?_⟩
        simp only [h26]
        rw [(encode_field_error_inv _ _ _ h26).1]
      · obtain ⟨rfl, -⟩ := encode_field_ok_inv _ _ _ h26
        simp only [h26]
        rcases hamt : amount_field amt with e | amtF
        · right; left
          refine ⟨hc, Or.inr (Or.inr ⟨e, rfl⟩), ?_⟩
          simp only [hamt]
          rw [amount_field_error_inv _ _ hamt]
        · simp only [hamt]
          have h59 : encode_field "59" (truncateBytes 25 r.name) =
              Except.ok (tlv "59" (truncateBytes 25 r.name)) :=
            encode_field_ok_of_le _ _
              (le_trans (byteLen_truncateBytes_le _ _) (by norm_num))
          have h60 : encode_field "60" (truncateBytes 15 r.city) =
              Except.ok (tlv "60" (truncateBytes 15 r.city)) :=
            encode_field_ok_of_le _ _
              (le_trans (byteLen_truncateBytes_le _ _) (by norm_num))
          have h05 : encode_field "05" (ref_value ref) =
              Except.ok (tlv "05" (ref_value ref)) :=
            encode_field_ok_of_le _ _
              (le_trans (byteLen_ref_value_le ref) (by norm_num))
          have h62 : encode_field "62" (tlv "05" (ref_value ref)) =
              Except.ok (tlv "62" (tlv "05" (ref_value ref))) :=
            encode_field_ok_of_le _ _
              (byteLen_tlv05_le _ (byteLen_ref_value_le ref))
          simp only [h59, h60, h05, h62]
          right; right
          exact ⟨hc, amtF, rfl, rfl⟩

lemma build_payload_ok_of (k : String) (r : Receiver) (amt : Option String)
    (ref : String) (amtF : String) (hk : k ≠ "") (hn : r.name ≠ "")
    (hc : r.city ≠ "") (hamt : amount_field amt = Except.ok amtF)
    (hklen : byteLen k ≤ 77) :
    build_payload k r amt ref =
      Except.ok (with_crc (pre_crc_string k r amtF ref)) := by
  rcases build_payload_cases k r amt ref with
    ⟨hcond, -⟩ | ⟨-, hreason, -⟩ | ⟨-, amtF2, hamt2, he⟩
  · rcases hcond with h | h | h
    · exact absurd h hk
    · exact absurd h hn
    · exact absurd h hc
  · rcases hreason with h | h | ⟨e, he⟩
    · omega
    · rw [byteLen_append] at h
      have hta : byteLen (tlv "00" "BR.GOV.BCB.PIX") = 18 := by decide
      rw [hta, byteLen_tlv] at h
      have h01b : byteLen ("01" : String) = 2 := rfl
      have hp2 : byteLen (pad2 (byteLen k)) = 2 := pad2_byteLen _ (by omega)
      rw [h01b, hp2] at h
      omega
    · rw [hamt] at he
      exact Except.noConfusion he
  · have : amtF = amtF2 := by
      rw [hamt] at hamt2
      exact Except.ok.inj hamt2
    rw [this]
    exact he

/-! ## Claim theorems -/

/-- C2: for every id and value, `encode_field` returns
id + zero-padded 2-digit decimal length + value, where the length is the
UTF-8 byte count of the value, and it fails with `FieldTooLongError`
exactly when that byte count exceeds 99. -/
theorem encode_field_spec (id v : String) :
    (byteLen v ≤ 99 →
      encode_field id v = Except.ok (id ++ pad2 (byteLen v) ++ v) ∧
      (pad2 (byteLen v)).length = 2) ∧
    (99 < byteLen v →
      encode_field id v = Except.error PixError.FieldTooLongError) := by
  constructor
  · intro h
    refine ⟨?_, pad2_length _ (by omega)⟩
    unfold encode_field
    rw [if_neg (by omega)]
  · intro h
    unfold encode_field
    rw [if_pos (by omega)]

/-- Witness for C2 at a concrete input: the length counts UTF-8 bytes
(4 for the 3-character string with one accented character), and the
overlong case errors. -/
theorem encode_field_spec_witness :
    encode_field "26" "ábc" = Except.ok ("26" ++ pad2 (byteLen "ábc") ++ "ábc") ∧
    (pad2 (byteLen "ábc")).length = 2 ∧
    byteLen "ábc" = 4 ∧ ("ábc" : String).length = 3 := by
  have h := (encode_field_spec "26" "ábc").1 (by decide)
  exact ⟨h.1, h.2, by decide, by decide⟩

/-- C1: every successful payload starts with `000201`, ends with `6304`
followed by exactly four uppercase hexadecimal digits, and those four
characters are the CRC16/CCITT-FALSE checksum of everything before them,
the trailing `6304` included. -/
theorem build_payload_crc_checked (k : String) (r : Receiver)
    (amt : Option String) (ref : String) (s : String)
    (h : build_payload k r amt ref = Except.ok s) :
    (∃ rest, s = "000201" ++ rest) ∧
    ∃ X chk, s = X ++ "6304" ++ chk ∧
      chk = toHex4 (crc16_ccitt_false (strBytes (X ++ "6304"))) ∧
      crc16_ccitt_false (strBytes (X ++ "6304")) < 65536 ∧
      chk.length = 4 ∧ ∀ c ∈ chk.data, isHexUpper c = true := by
  rcases build_payload_cases k r amt ref with ⟨-, he⟩ | ⟨-, -, he⟩ | ⟨-, amtF, -, he⟩
  · rw [h] at he
    exact Except.noConfusion he
  · rw [h] at he
    exact Except.noConfusion he
  · rw [h] at he
    have hs : s = with_crc (pre_crc_string k r amtF ref) := Except.ok.inj he
    subst hs
    constructor
    · refine ⟨tlv "26" (tlv "00" "BR.GOV.BCB.PIX" ++ tlv "01" k) ++
        (tlv "52" "0000" ++ (tlv "53" "986" ++ (amtF ++ (tlv "58" "BR" ++
        (tlv "59" (truncateBytes 25 r.name) ++ (tlv "60" (truncateBytes 15 r.city) ++
        (tlv "62" (tlv "05" (ref_value ref)) ++ ("6304" ++
        toHex4 (crc16_ccitt_false (strBytes (pre_crc_string k r amtF ref))))))))))), ?_⟩
      have h0 : tlv "00" "01" = "000201" := rfl
      rw [← h0]
      unfold with_crc pre_crc_string
      simp only [sapp_assoc]
    · exact ⟨tlv "00" "01" ++ tlv "26" (tlv "00" "BR.GOV.BCB.PIX" ++ tlv "01" k) ++
        tlv "52" "0000" ++ tlv "53" "986" ++ amtF ++ tlv "58" "BR" ++
        tlv "59" (truncateBytes 25 r.name) ++ tlv "60" (truncateBytes 15 r.city) ++
        tlv "62" (tlv "05" (ref_value ref)),
        toHex4 (crc16_ccitt_false (strBytes (pre_crc_string k r amtF ref))),
        rfl, rfl, crc16_lt _, rfl, toHex4_hex _⟩

set_option maxRecDepth 4000 in
/-- Witness for C1 at a concrete input: the pre-CRC string is pinned as
a literal, and the claim theorem is applied to the resulting payload. -/
theorem build_payload_crc_checked_witness :
    pre_crc_string "k" ⟨"N", "C"⟩ "" "" =
      "00020126230014BR.GOV.BCB.PIX0101k5204000053039865802BR5901N6001C62070503***6304" ∧
    (∃ rest, with_crc (pre_crc_string "k" ⟨"N", "C"⟩ "" "") = "000201" ++ rest) ∧
    ∃ X chk, with_crc (pre_crc_string "k" ⟨"N", "C"⟩ "" "") = X ++ "6304" ++ chk ∧
      chk = toHex4 (crc16_ccitt_false (strBytes (X ++ "6304"))) ∧
      crc16_ccitt_false (strBytes (X ++ "6304")) < 65536 ∧
      chk.length = 4 ∧ ∀ c ∈ chk.data, isHexUpper c = true := by
  have hb : build_payload "k" ⟨"N", "C"⟩ none "" =
      Except.ok (with_crc (pre_crc_string "k" ⟨"N", "C"⟩ "" "")) :=
    build_payload_ok_of "k" ⟨"N", "C"⟩ none "" "" (by decide) (by decide)
      (by decide) rfl (by decide)
  exact ⟨rfl, build_payload_crc_checked "k" ⟨"N", "C"⟩ none "" _ hb⟩

/-- C3: every successful payload is the concatenation, in exactly the
mandated order, of the TLV fields 00, 26 (sub-fields 00 and 01), 52, 53,
the amount contribution, 58, 59, 60, 62 (sub-field 05), the literal
`6304`, and the checksum. -/
theorem build_payload_field_order (k : String) (r : Receiver)
    (amt : Option String) (ref : String) (s : String)
    (h : build_payload k r amt ref = Except.ok s) :
    ∃ amtF chk, amount_field amt = Except.ok amtF ∧
      s = tlv "00" "01" ++ tlv "26" (tlv "00" "BR.GOV.BCB.PIX" ++ tlv "01" k) ++
          tlv "52" "0000" ++ tlv "53" "986" ++ amtF ++ tlv "58" "BR" ++
          tlv "59" (truncateBytes 25 r.name) ++ tlv "60" (truncateBytes 15 r.city) ++
          tlv "62" (tlv "05" (ref_value ref)) ++ "6304" ++ chk := by
  rcases build_payload_cases k r amt ref with ⟨-, he⟩ | ⟨-, -, he⟩ | ⟨-, amtF, hamt, he⟩
  · rw [h] at he
    exact Except.noConfusion he
  · rw [h] at he
    exact Except.noConfusion he
  · rw [h] at he
    exact ⟨amtF, toHex4 (crc16_ccitt_false (strBytes (pre_crc_string k r amtF ref))),
      hamt, Except.ok.inj he⟩

set_option maxRecDepth 4000 in
/-- Witness for C3 at a concrete input with a pinned pre-CRC literal
(the amount field `540512.34` sits between field 53 and field 58). -/
theorem build_payload_field_order_witness :
    pre_crc_string "k" ⟨"N", "C"⟩ (tlv "54" "12.34") "" =
      "00020126230014BR.GOV.BCB.PIX0101k520400005303986540512.345802BR5901N6001C62070503***6304" ∧
    ∃ amtF chk, amount_field (some "12.34") = Except.ok amtF ∧
      with_crc (pre_crc_string "k" ⟨"N", "C"⟩ (tlv "54" "12.34") "") =
        tlv "00" "01" ++ tlv "26" (tlv "00" "BR.GOV.BCB.PIX" ++ tlv "01" "k") ++
        tlv "52" "0000" ++ tlv "53" "986" ++ amtF ++ tlv "58" "BR" ++
        tlv "59" (truncateBytes 25 ("N" : String)) ++
        tlv "60" (truncateBytes 15 ("C" : String)) ++
        tlv "62" (tlv "05" (ref_value "")) ++ "6304" ++ chk := by
  have hb : build_payload "k" ⟨"N", "C"⟩ (some "12.34") "" =
      Except.ok (with_crc (pre_crc_string "k" ⟨"N", "C"⟩ (tlv "54" "12.34") "")) :=
    build_payload_ok_of "k" ⟨"N", "C"⟩ (some "12.34") "" (tlv "54" "12.34")
      (by decide) (by decide) (by decide) rfl (by decide)
  exact ⟨rfl, build_payload_field_order "k" ⟨"N", "C"⟩ (some "12.34") "" _ hb⟩

/-- C7: `build_payload` fails with `MissingFieldError` exactly when the
key, the receiver name or the receiver city is empty, and on any failure
no payload string is returned — encoding is all-or-nothing. -/
theorem build_payload_error_conditions (k : String) (r : Receiver)
    (amt : Option String) (ref : String) :
    (build_payload k r amt ref = Except.error PixError.MissingFieldError ↔
      (k = "" ∨ r.name = "" ∨ r.city = "")) ∧
    (∀ e, build_payload k r amt ref = Except.error e →
      ∀ s, build_payload k r amt ref ≠ Except.ok s) := by
  constructor
  · constructor
    · intro h
      rcases build_payload_cases k r amt ref with ⟨hc, -⟩ | ⟨-, -, he⟩ | ⟨-, amtF, -, he⟩
      · exact hc
      · rw [h] at he
        exact absurd (Except.error.inj he) (by decide)
      · rw [h] at he
        exact Except.noConfusion he
    · intro hc
      unfold build_payload
      rw [if_pos hc]
  · intro e he s hs
    rw [he] at hs
    exact Except.noConfusion hs

/-- Witness for C7 at concrete inputs: an empty key fails with
`MissingFieldError`, and a fully populated input does not. -/
theorem build_payload_error_conditions_witness :
    build_payload "" ⟨"N", "C"⟩ none "" = Except.error PixError.MissingFieldError ∧
    ¬(build_payload "k" ⟨"N", "C"⟩ none "" = Except.error PixError.MissingFieldError) := by
  constructor
  · exact (build_payload_error_conditions "" ⟨"N", "C"⟩ none "").1.mpr (Or.inl rfl)
  · intro h
    have := (build_payload_error_conditions "k" ⟨"N", "C"⟩ none "").1.mp h
    simp at this

/-- C8: `build_payload` is deterministic — equal inputs give equal
outputs; as a Lean function of its four arguments it can depend on
nothing else (no randomness, time, or external state). -/
theorem build_payload_deterministic (k₁ k₂ : String) (r₁ r₂ : Receiver)
    (a₁ a₂ : Option String) (f₁ f₂ : String)
    (hk : k₁ = k₂) (hr : r₁ = r₂) (ha : a₁ = a₂) (hf : f₁ = f₂) :
    build_payload k₁ r₁ a₁ f₁ = build_payload k₂ r₂ a₂ f₂ := by
  rw [hk, hr, ha, hf]

/-- Witness for C8 at a concrete input. -/
theorem build_payload_deterministic_witness :
    build_payload "k" ⟨"N", "C"⟩ none "" = build_payload "k" ⟨"N", "C"⟩ none "" :=
  build_payload_deterministic "k" "k" ⟨"N", "C"⟩ ⟨"N", "C"⟩ none none "" ""
    rfl rfl rfl rfl

/-- C4: when the amount is absent or zero the payload carries no id-54
field at all (fields 53 and 58 are adjacent); when present and nonzero,
the id-54 field carries exactly the given amount string. -/
theorem build_payload_amount_rule (k : String) (r : Receiver)
    (amt : Option String) (ref : String) (s : String)
    (h : build_payload k r amt ref = Except.ok s) :
    ((amt = none ∨ ∃ a, amt = some a ∧ isZeroAmount a = true) →
      ∃ pre post, s = pre ++ tlv "53" "986" ++ tlv "58" "BR" ++ post) ∧
    (∀ a, amt = some a → isZeroAmount a = false →
      ∃ pre post, s = pre ++ tlv "53" "986" ++ tlv "54" a ++ tlv "58" "BR" ++ post) := by
  rcases build_payload_cases k r amt ref with ⟨-, he⟩ | ⟨-, -, he⟩ | ⟨-, amtF, hamt, he⟩
  · rw [h] at he
    exact Except.noConfusion he
  · rw [h] at he
    exact Except.noConfusion he
  · rw [h] at he
    have hs : s = with_crc (pre_crc_string k r amtF ref) := Except.ok.inj he
    subst hs
    constructor
    · intro hz
      have hamtF : amtF = "" := by
        rcases hz with rfl | ⟨a, rfl, hza⟩
        · exact (Except.ok.inj hamt).symm
        · rw [amount_field_some, if_pos hza] at hamt
          exact (Except.ok.inj hamt).symm
      subst hamtF
      refine ⟨tlv "00" "01" ++ tlv "26" (tlv "00" "BR.GOV.BCB.PIX" ++ tlv "01" k) ++
        tlv "52" "0000",
        tlv "59" (truncateBytes 25 r.name) ++ (tlv "60" (truncateBytes 15 r.city) ++
          (tlv "62" (tlv "05" (ref_value ref)) ++ ("6304" ++
            toHex4 (crc16_ccitt_false (strBytes (pre_crc_string k r "" ref)))))), ?_⟩
      unfold with_crc pre_crc_string
      simp only [sapp_assoc, sapp_empty, sapp_empty_left]
    · intro a ha hza
      subst ha
      have hamtF : amtF = tlv "54" a := by
        rw [amount_field_some, if_neg (by simp [hza])] at hamt
        exact (encode_field_ok_inv _ _ _ hamt).1
      subst hamtF
      refine ⟨tlv "00" "01" ++ tlv "26" (tlv "00" "BR.GOV.BCB.PIX" ++ tlv "01" k) ++
        tlv "52" "0000",
        tlv "59" (truncateBytes 25 r.name) ++ (tlv "60" (truncateBytes 15 r.city) ++
          (tlv "62" (tlv "05" (ref_value ref)) ++ ("6304" ++
            toHex4 (crc16_ccitt_false (strBytes (pre_crc_string k r (tlv "54" a) ref)))))), ?_⟩
      unfold with_crc pre_crc_string
      simp only [sapp_assoc]

/-- Witness for C4: a zero amount leaves fields 53 and 58 adjacent, a
nonzero amount puts field 54 between them. -/
theorem build_payload_amount_rule_witness :
    (∃ pre post, with_crc (pre_crc_string "k" ⟨"N", "C"⟩ "" "") =
      pre ++ tlv "53" "986" ++ tlv "58" "BR" ++ post) ∧
    (∃ pre post, with_crc (pre_crc_string "k" ⟨"N", "C"⟩ (tlv "54" "12.34") "") =
      pre ++ tlv "53" "986" ++ tlv "54" "12.34" ++ tlv "58" "BR" ++ post) := by
  have hbz : build_payload "k" ⟨"N", "C"⟩ (some "0.00") "" =
      Except.ok (with_crc (pre_crc_string "k" ⟨"N", "C"⟩ "" "")) :=
    build_payload_ok_of "k" ⟨"N", "C"⟩ (some "0.00") "" "" (by decide) (by decide)
      (by decide) rfl (by decide)
  have hba : build_payload "k" ⟨"N", "C"⟩ (some "12.34") "" =
      Except.ok (with_crc (pre_crc_string "k" ⟨"N", "C"⟩ (tlv "54" "12.34") "")) :=
    build_payload_ok_of "k" ⟨"N", "C"⟩ (some "12.34") "" (tlv "54" "12.34")
      (by decide) (by decide) (by decide) rfl (by decide)
  constructor
  · exact (build_payload_amount_rule "k" ⟨"N", "C"⟩ (some "0.00") "" _ hbz).1
      (Or.inr ⟨"0.00", rfl, by decide⟩)
  · exact (build_payload_amount_rule "k" ⟨"N", "C"⟩ (some "12.34") "" _ hba).2
      "12.34" rfl (by decide)

/-- C5: the payload carries the merchant name truncated to 25 bytes and
the city truncated to 15 bytes; the truncation is silent (those fields
always encode), keeps an ASCII string of at most 25 bytes unmodified,
and cuts a longer ASCII string to its first 25 characters. -/
theorem build_payload_truncates (k : String) (r : Receiver)
    (amt : Option String) (ref : String) (s : String)
    (h : build_payload k r amt ref = Except.ok s) :
    (∃ pre post, s = pre ++ tlv "59" (truncateBytes 25 r.name) ++
        tlv "60" (truncateBytes 15 r.city) ++ post) ∧
    byteLen (truncateBytes 25 r.name) ≤ 25 ∧
    byteLen (truncateBytes 15 r.city) ≤ 15 ∧
    encode_field "59" (truncateBytes 25 r.name) =
      Except.ok (tlv "59" (truncateBytes 25 r.name)) ∧
    (∀ nm : String, isAsciiStr nm = true → byteLen nm ≤ 25 →
      truncateBytes 25 nm = nm) ∧
    (∀ nm : String, isAsciiStr nm = true →
      truncateBytes 25 nm = String.mk (nm.data.take 25)) := by
  refine ⟨?_, byteLen_truncateBytes_le _ _, byteLen_truncateBytes_le _ _,
    encode_field_ok_of_le _ _ (le_trans (byteLen_truncateBytes_le _ _) (by norm_num)),
    fun nm ha hle => truncateBytes_of_short 25 nm ha hle,
    fun nm ha => truncateBytes_ascii 25 nm ha⟩
  rcases build_payload_cases k r amt ref with ⟨-, he⟩ | ⟨-, -, he⟩ | ⟨-, amtF, hamt, he⟩
  · rw [h] at he
    exact Except.noConfusion he
  · rw [h] at he
    exact Except.noConfusion he
  · rw [h] at he
    have hs : s = with_crc (pre_crc_string k r amtF ref) := Except.ok.inj he
    subst hs
    refine ⟨tlv "00" "01" ++ tlv "26" (tlv "00" "BR.GOV.BCB.PIX" ++ tlv "01" k) ++
      tlv "52" "0000" ++ tlv "53" "986" ++ amtF ++ tlv "58" "BR",
      tlv "62" (tlv "05" (ref_value ref)) ++ ("6304" ++
        toHex4 (crc16_ccitt_false (strBytes (pre_crc_string k r amtF ref)))), ?_⟩
    unfold with_crc pre_crc_string
    simp only [sapp_assoc]

/-- Witness for C5: a 25-byte ASCII name is kept whole, a 26-byte one is
cut to its first 25 characters. -/
theorem build_payload_truncates_witness :
    (∃ pre post, with_crc (pre_crc_string "k" ⟨"N", "C"⟩ "" "") =
      pre ++ tlv "59" (truncateBytes 25 ("N" : String)) ++
      tlv "60" (truncateBytes 15 ("C" : String)) ++ post) ∧
    truncateBytes 25 "ABCDEFGHIJKLMNOPQRSTUVWXY" = "ABCDEFGHIJKLMNOPQRSTUVWXY" ∧
    truncateBytes 25 "ABCDEFGHIJKLMNOPQRSTUVWXYZ" = "ABCDEFGHIJKLMNOPQRSTUVWXY" := by
  have hb : build_payload "k" ⟨"N", "C"⟩ none "" =
      Except.ok (with_crc (pre_crc_string "k" ⟨"N", "C"⟩ "" "")) :=
    build_payload_ok_of "k" ⟨"N", "C"⟩ none "" "" (by decide) (by decide)
      (by decide) rfl (by decide)
  have h := build_payload_truncates "k" ⟨"N", "C"⟩ none "" _ hb
  refine ⟨h.1, h.2.2.2.2.1 _ (by decide) (by decide), ?_⟩
  have h26 := h.2.2.2.2.2 "ABCDEFGHIJKLMNOPQRSTUVWXYZ" (by decide)
  rw [h26]
  decide

/-- C6: the payload always carries the additional-data template 62 with
sub-field 05; an empty reference yields the placeholder value, a
non-empty one is truncated to 25 bytes. -/
theorem build_payload_reference_rule (k : String) (r : Receiver)
    (amt : Option String) (ref : String) (s : String)
    (h : build_payload k r amt ref = Except.ok s) :
    (∃ pre chk, s = pre ++ tlv "62" (tlv "05" (ref_value ref)) ++ "6304" ++ chk) ∧
    (ref = "" → ref_value ref = "***") ∧
    (ref ≠ "" → ref_value ref = truncateBytes 25 ref ∧
      byteLen (truncateBytes 25 ref) ≤ 25) := by
  refine ⟨?_, ?_, ?_⟩
  · rcases build_payload_cases k r amt ref with ⟨-, he⟩ | ⟨-, -, he⟩ | ⟨-, amtF, hamt, he⟩
    · rw [h] at he
      exact Except.noConfusion he
    · rw [h] at he
      exact Except.noConfusion he
    · rw [h] at he
      exact ⟨tlv "00" "01" ++ tlv "26" (tlv "00" "BR.GOV.BCB.PIX" ++ tlv "01" k) ++
        tlv "52" "0000" ++ tlv "53" "986" ++ amtF ++ tlv "58" "BR" ++
        tlv "59" (truncateBytes 25 r.name) ++ tlv "60" (truncateBytes 15 r.city),
        toHex4 (crc16_ccitt_false (strBytes (pre_crc_string k r amtF ref))),
        Except.ok.inj he⟩
  · intro h0
    unfold ref_value
    rw [if_pos h0]
  · intro h0
    unfold ref_value
    rw [if_neg h0]
    exact ⟨rfl, byteLen_truncateBytes_le _ _⟩

/-- Witness for C6: an empty reference produces the placeholder, a
non-empty one its own truncation. -/
theorem build_payload_reference_rule_witness :
    (∃ pre chk, with_crc (pre_crc_string "k" ⟨"N", "C"⟩ "" "") =
      pre ++ tlv "62" (tlv "05" (ref_value "")) ++ "6304" ++ chk) ∧
    ref_value "" = "***" ∧
    ref_value "PEDIDO1" = truncateBytes 25 "PEDIDO1" := by
  have hb : build_payload "k" ⟨"N", "C"⟩ none "" =
      Except.ok (with_crc (pre_crc_string "k" ⟨"N", "C"⟩ "" "")) :=
    build_payload_ok_of "k" ⟨"N", "C"⟩ none "" "" (by decide) (by decide)
      (by decide) rfl (by decide)
  have hb2 : build_payload "k" ⟨"N", "C"⟩ none "PEDIDO1" =
      Except.ok (with_crc (pre_crc_string "k" ⟨"N", "C"⟩ "" "PEDIDO1")) :=
    build_payload_ok_of "k" ⟨"N", "C"⟩ none "PEDIDO1" "" (by decide) (by decide)
      (by decide) rfl (by decide)
  have h := build_payload_reference_rule "k" ⟨"N", "C"⟩ none "" _ hb
  have h2 := build_payload_reference_rule "k" ⟨"N", "C"⟩ none "PEDIDO1" _ hb2
  exact ⟨h.1, h.2.1 rfl, (h2.2.2 (by decide)).1⟩

/-! ## Payer-row bookkeeping lemmas -/

lemma importar_pagadores_csv_spec : ∀ (ps : List PagadorCSV) (rows : List String)
    (q : Nat),
    importar_pagadores_csv ps ⟨some rows, q⟩ =
      ⟨some (rows ++ (List.range ps.length).map (fun i => pagador_id (q + 2 * i))),
       q + 2 * ps.length⟩ := by
  intro ps
  induction ps with
  | nil =>
    intro rows q
    simp [importar_pagadores_csv]
  | cons p ps ih =>
    intro rows q
    show importar_pagadores_csv ps (adicionar_pagador_csv p ⟨some rows, q⟩) = _
    have hstep : adicionar_pagador_csv p ⟨some rows, q⟩ =
        ⟨some (rows ++ [pagador_id q]), q + 2⟩ := rfl
    rw [hstep, ih]
    have hfun : ((fun i => pagador_id (q + 2 * i)) ∘ Nat.succ) =
        (fun i => pagador_id (q + 2 + 2 * i)) := by
      funext i
      exact congrArg pagador_id (by omega)
    simp only [PixState.mk.injEq, List.length_cons]
    constructor
    · rw [List.range_succ_eq_map, List.map_cons, List.map_map, hfun]
      simp [List.append_assoc]
    · omega

/-- C9: with the payer container present, `adicionar_pagador_csv`
advances the `qtd_pagadores` counter by exactly 2 per call while
`adicionar_pagador` advances it by 1, so the row ids created by a
CSV-imported batch skip every other index. -/
theorem adicionar_pagador_csv_double (s : PixState) (rows : List String)
    (p : PagadorCSV) (ps : List PagadorCSV)
    (hdiv : s.pagadores_div = some rows) :
    (adicionar_pagador_csv p s).qtd_pagadores = s.qtd_pagadores + 2 ∧
    (adicionar_pagador s).qtd_pagadores = s.qtd_pagadores + 1 ∧
    (importar_pagadores_csv ps s).pagadores_div =
      some (rows ++ (List.range ps.length).map
        (fun i => pagador_id (s.qtd_pagadores + 2 * i))) := by
  obtain ⟨pd, q⟩ := s
  obtain rfl : pd = some rows := hdiv
  refine ⟨rfl, rfl, ?_⟩
  rw [importar_pagadores_csv_spec ps rows q]

/-- Witness for C9: starting from the initial state (one manual payer
row already added, counter at 1), importing two CSV payers creates rows
`pagador-1` and `pagador-3`, skipping index 2. -/
theorem adicionar_pagador_csv_double_witness :
    (adicionar_pagador_csv ⟨"A", "1"⟩ ⟨some [], 1⟩).qtd_pagadores = 3 ∧
    (adicionar_pagador ⟨some [], 1⟩).qtd_pagadores = 2 ∧
    (importar_pagadores_csv [⟨"A", "1"⟩, ⟨"B", "2"⟩] ⟨some [], 1⟩).pagadores_div =
      some ["pagador-1", "pagador-3"] := by
  have h := adicionar_pagador_csv_double ⟨some [], 1⟩ [] ⟨"A", "1"⟩
    [⟨"A", "1"⟩, ⟨"B", "2"⟩] rfl
  refine ⟨h.1, h.2.1, ?_⟩
  rw [h.2.2]
  decide

/-! ## CSV parser theorems -/

/-- The claim that every parsed payer has a non-empty `valor` fails: the
line `"abc;R$"` passes the truthiness check with `valor = "R$"`, and the
replacement chain then erases it completely. -/
theorem parse_csv_empty_valor_counterexample :
    parse_csv_to_pagadores "abc;R$" = [⟨"abc", ""⟩] ∧
    ¬(∀ p ∈ parse_csv_to_pagadores "abc;R$", p.valor ≠ "") := by
  constructor
  · decide
  · decide

/-- C10 (amended): every parsed payer comes from a non-blank line whose
first two semicolon fields are present and non-empty; its `referencia`
is non-empty and at most 20 characters, and its `valor` is the raw
second field with the first occurrences of `R$ ` and `R$` removed and
the first comma replaced by a dot (possibly empty). -/
theorem parse_csv_elements (csv : String) (p : PagadorCSV)
    (hp : p ∈ parse_csv_to_pagadores csv) :
    p.referencia ≠ "" ∧ p.referencia.length ≤ 20 ∧
    ∃ line, line ∈ (jsSplit '\n' csv).map jsTrim ∧ line ≠ "" ∧
      ∃ rawRef rawVal,
        ((jsSplit ';' line).map jsTrim)[0]? = some rawRef ∧
        ((jsSplit ';' line).map jsTrim)[1]? = some rawVal ∧
        rawRef ≠ "" ∧ rawVal ≠ "" ∧
        p.referencia = String.mk (rawRef.data.take 20) ∧
        p.valor = parse_valor rawVal := by
  unfold parse_csv_to_pagadores at hp
  obtain ⟨line, hline, hparse⟩ := List.mem_filterMap.1 hp
  obtain ⟨hmem, hne⟩ := List.mem_filter.1 hline
  rw [bne_iff_ne] at hne
  simp only [parse_linha] at hparse
  rcases h0 : ((jsSplit ';' line).map jsTrim)[0]? with - | rawRef <;>
    rcases h1 : ((jsSplit ';' line).map jsTrim)[1]? with - | rawVal <;>
    rw [h0, h1] at hparse
  · simp at hparse
  · simp at hparse
  · simp at hparse
  · have hparse2 : (if rawRef != "" && rawVal != "" then
        some (⟨String.mk (rawRef.data.take 20), parse_valor rawVal⟩ : PagadorCSV)
      else none) = some p := hparse
    by_cases hcond : (rawRef != "" && rawVal != "") = true
    · rw [if_pos hcond] at hparse2
      obtain ⟨hrefne, hvalne⟩ : rawRef ≠ "" ∧ rawVal ≠ "" := by
        simpa [Bool.and_eq_true, bne_iff_ne] using hcond
      have hp2 : p = ⟨String.mk (rawRef.data.take 20), parse_valor rawVal⟩ :=
        (Option.some.inj hparse2).symm
      subst hp2
      have hrefdata : rawRef.data ≠ [] := (str_ne_empty_iff rawRef).1 hrefne
      refine ⟨?_, ?_, line, hmem, hne, rawRef, rawVal, h0, h1, hrefne, hvalne,
        rfl, rfl⟩
      · rw [str_ne_empty_iff]
        cases hd : rawRef.data with
        | nil => exact absurd hd hrefdata
        | cons c cs => simp [hd]
      · show (rawRef.data.take 20).length ≤ 20
        rw [List.length_take]
        exact min_le_left _ _
    · rw [if_neg hcond] at hparse2
      exact absurd hparse2 (by simp)

/-- Witness for C10 at a concrete input: the line `"ref;R$ 1,50"` parses
to a payer whose reference is intact and whose value has the currency
prefix stripped and the comma converted. -/
theorem parse_csv_elements_witness :
    (⟨"ref", "1.50"⟩ : PagadorCSV).referencia ≠ "" ∧
    (⟨"ref", "1.50"⟩ : PagadorCSV).referencia.length ≤ 20 ∧
    ∃ line, line ∈ (jsSplit '\n' "ref;R$ 1,50").map jsTrim ∧ line ≠ "" ∧
      ∃ rawRef rawVal,
        ((jsSplit ';' line).map jsTrim)[0]? = some rawRef ∧
        ((jsSplit ';' line).map jsTrim)[1]? = some rawVal ∧
        rawRef ≠ "" ∧ rawVal ≠ "" ∧
        (⟨"ref", "1.50"⟩ : PagadorCSV).referencia = String.mk (rawRef.data.take 20) ∧
        (⟨"ref", "1.50"⟩ : PagadorCSV).valor = parse_valor rawVal :=
  parse_csv_elements "ref;R$ 1,50" ⟨"ref", "1.50"⟩ (by decide)
